import Mathlib

/-!
Verification of `src/pyfighter/models/player.py` (class `Player`).

Modelling conventions:
* pygame surfaces are mutable objects; we model them as identifiers (`SurfId`)
  into an association-list heap `List (SurfId × Img)`, so that the in-place
  `Surface.fill` mutation and the aliasing between `self.img` and
  `self.idle_animation_frames[self.current_frame]` are captured faithfully.
* `Img` abstracts a surface image as a base picture plus a count of additive
  yellow blends applied to it (`fill(yellow, BLEND_ADD)` changes any
  non-saturated image, so one more blend yields a different image value).
* sound playback (`Sound.play`) is a fire-and-forget effect; methods return
  the list of sounds played, in order, as `Sfx` events.
* Python ints are `Int` (combat counters, hp) or `Nat` where the source only
  ever keeps natural values that feed list indexing / `%` (frame index,
  animation counter, millisecond clock).
* the `Actor` base class, `Missile.lock`, `Actor.resolve_collision` and the
  numeric constants live in repository files that are not under `src/`:
  Actor fields are inlined into `PlayerState`, collision is a Boolean
  parameter, the `Missile.lock` result is passed as an argument, and the
  constants are gathered in a `Consts` parameter record.
* `pygame.sprite.Group.add` / `.remove` are modelled on lists of records that
  carry a unique `id`; `remove` filters by that id (pygame removal is by
  object identity and is a no-op when the sprite is absent).
* a Python runtime error (the `% len(...)` ZeroDivisionError reachable from
  `update_idle_animation` with an empty frame list) is modelled by an
  `Option` result: `none` is the crash.
-/

namespace PyFighter

/-- Identifier of a pygame surface object in our explicit heap. -/
abbrev SurfId := Nat

/-- Abstract value of a surface: a base picture plus the number of additive
yellow blends that have been applied to it in place. -/
structure Img where
  base : Nat
  glow : Nat
deriving DecidableEq

/-- Read a surface value from the heap (first binding wins, as each id is
bound at most once in the states we build). -/
def heapGet (h : List (SurfId × Img)) (i : SurfId) : Img :=
  ((h.find? (fun e => e.1 == i)).map Prod.snd).getD ⟨0, 0⟩

/-- In-place update of the surface bound to `i`. -/
def heapSet (h : List (SurfId × Img)) (i : SurfId) (v : Img) : List (SurfId × Img) :=
  h.map (fun e => if e.1 == i then (i, v) else e)

/-- Blend `img.fill(yellow, special_flags=BLEND_ADD)`: one more additive blend. -/
def fillYellow (v : Img) : Img :=
  { v with glow := v.glow + 1 }

/-- Sound effects the Player methods can trigger. -/
inductive Sfx
  | laserFire
  | laserHit
  | explosion
  | missileFire
deriving DecidableEq

/-- A fired laser: `Actor(laser_pos, self.laser_dmg, BASE_LASER_SPEED, ...)`.
The image, mask and offset arguments are opaque asset handles and are not
modelled; `id` models object identity inside the sprite group. -/
structure Projectile where
  id : Nat
  posX : Int
  posY : Int
  hp : Int
  speed : Int
deriving DecidableEq

/-- A fired missile: `Missile(missile_pos, 1, self.speed, ..., lock, 90.0)`.
Image/mask/offset handles and the float angle constant are not modelled;
`lock` is the result of the external `Missile.lock` call. -/
structure MissileRec where
  id : Nat
  posX : Int
  posY : Int
  hp : Int
  speed : Int
  lock : Option Nat
deriving DecidableEq

/-- An enemy actor as seen by `resolve_hits` / `resolve_missiles`: hit points
plus a flag recording whether its removal hook `kill()` has been invoked. -/
structure Target where
  id : Nat
  hp : Int
  killed : Bool
deriving DecidableEq

/-- Removal hook `obj.kill()`: pygame removal hook, modelled as a flag. -/
def Target.kill (t : Target) : Target :=
  { t with killed := true }

/-- Modelled from the spec: the numeric constants `BASE_LASER_SPEED`,
`BASE_LASER_DMG` and `BASE_CANNON_COOLDOWN` are imported from `constants.py`,
which is not under `src/`; the spec keeps them abstract, so they are
parameters here. -/
structure Consts where
  baseLaserSpeed : Int
  baseLaserDmg : Int
  baseCannonCooldown : Int
deriving DecidableEq

/-- The `Player` object state: the `Actor` base fields (position, hp, speed,
image, draw offset; mask handles omitted as opaque assets) plus every field
assigned in `Player.__init__`. -/
structure PlayerState where
  posX : Int
  posY : Int
  hp : Int
  speed : Int
  offsetY : Int
  img : SurfId
  cooldown_threshold : Int
  cooldown_counter : Int
  laser_dmg : Int
  missile_count : Int
  score : Int
  lasers_fired : List Projectile
  missiles_fired : List MissileRec
  missile_cooldown_threshold : Int
  missile_cooldown_counter : Int
  idle_animation_frames : List SurfId
  current_frame : Nat
  animation_counter : Nat
  glow_effect_duration : Nat
  glow_effect_end_time : Nat
  original_images : List (Nat × SurfId)
  heap : List (SurfId × Img)
  nextId : Nat
deriving DecidableEq

/-- Constructor `Player.__init__`: the constructor performs only field assignments, no
validation.  `heap` and `nextId` describe the pre-loaded surface objects. -/
def Player.init (c : Consts) (posX posY hp speed : Int) (shipImg : SurfId)
    (offsetY : Int) (idleFrames : List SurfId) (heap : List (SurfId × Img))
    (nextId : Nat) : PlayerState where
  posX := posX
  posY := posY
  hp := hp
  speed := speed
  offsetY := offsetY
  img := shipImg
  cooldown_threshold := c.baseCannonCooldown
  cooldown_counter := 0
  laser_dmg := c.baseLaserDmg
  missile_count := 2
  score := 0
  lasers_fired := []
  missiles_fired := []
  missile_cooldown_threshold := c.baseCannonCooldown
  missile_cooldown_counter := 0
  idle_animation_frames := idleFrames
  current_frame := 0
  animation_counter := 0
  glow_effect_duration := 200
  glow_effect_end_time := 0
  original_images := []
  heap := heap
  nextId := nextId

/-- Method `Player.shoot`: fires a laser only when the cannon cooldown counter is 0;
the new laser sits at `(pos.x, pos.y - offset.y)` with hp `self.laser_dmg`
and speed `BASE_LASER_SPEED`, the fire sound plays, and the counter is set
to 1.  Otherwise nothing happens. -/
def Player.shoot (c : Consts) (p : PlayerState) : PlayerState × List Sfx :=
  if p.cooldown_counter = 0 then
    let laser : Projectile :=
      ⟨p.nextId, p.posX, p.posY - p.offsetY, p.laser_dmg, c.baseLaserSpeed⟩
    ({ p with
        lasers_fired := p.lasers_fired ++ [laser]
        nextId := p.nextId + 1
        cooldown_counter := 1 },
     [Sfx.laserFire])
  else
    (p, [])

/-- Method `Player.cooldown_cannon`: reset when the threshold is reached, otherwise
advance a running (nonzero) counter. -/
def Player.cooldown_cannon (p : PlayerState) : PlayerState :=
  if p.cooldown_threshold ≤ p.cooldown_counter then
    { p with cooldown_counter := 0 }
  else if 0 < p.cooldown_counter then
    { p with cooldown_counter := p.cooldown_counter + 1 }
  else
    p

/-- Method `Player.cooldown_missiles`: same shape on the missile counter. -/
def Player.cooldown_missiles (p : PlayerState) : PlayerState :=
  if p.missile_cooldown_threshold ≤ p.missile_cooldown_counter then
    { p with missile_cooldown_counter := 0 }
  else if 0 < p.missile_cooldown_counter then
    { p with missile_cooldown_counter := p.missile_cooldown_counter + 1 }
  else
    p

/-- Method `Player.fire_missle`: fires only with a missile in stock and a cold
launcher; the spawned missile carries hp field 1 (spawn-time damage
placeholder) and the player speed, the count drops by one, the missile
cooldown starts, and the missile sound plays.  `lock` is the result of the
external `Missile.lock(self.pos, targets)` call. -/
def Player.fire_missle (lock : Option Nat) (p : PlayerState) :
    PlayerState × List Sfx :=
  if 0 < p.missile_count ∧ p.missile_cooldown_counter = 0 then
    let missile : MissileRec :=
      ⟨p.nextId, p.posX, p.posY - p.offsetY, 1, p.speed, lock⟩
    ({ p with
        missiles_fired := p.missiles_fired ++ [missile]
        nextId := p.nextId + 1
        missile_count := p.missile_count - 1
        missile_cooldown_counter := 1 },
     [Sfx.missileFire])
  else
    (p, [])

/-- Method `Player.resolve_hits`: walks the candidate list; every non-null candidate
for which `Actor.resolve_collision(laser, obj)` holds (the Boolean parameter
`collides`, as the collision primitive is external) loses 1 hp and triggers
the laser-hit sound; a candidate whose hp is then `≤ 0` is killed, triggers
the explosion sound and joins the returned kill list; on any hit the laser is
removed (by identity) from `lasers_fired`.  Returns the updated player, the
candidates after their in-place mutation, the kill list, and the sounds. -/
def Player.resolve_hits (collides : Target → Bool) (laser : Nat)
    (p : PlayerState) :
    List (Option Target) →
      PlayerState × List (Option Target) × List Target × List Sfx
  | [] => (p, [], [], [])
  | obj :: rest =>
    match obj with
    | none =>
      let (p', objs', kills, sounds) := Player.resolve_hits collides laser p rest
      (p', none :: objs', kills, sounds)
    | some o =>
      if collides o then
        let o1 : Target := { o with hp := o.hp - 1 }
        let (o2, killedNow, sfx) :=
          if o1.hp ≤ 0 then
            (Target.kill o1, [Target.kill o1], [Sfx.laserHit, Sfx.explosion])
          else
            (o1, ([] : List Target), [Sfx.laserHit])
        let p1 := { p with
          lasers_fired := p.lasers_fired.filter (fun l => l.id ≠ laser) }
        let (p', objs', kills, sounds) :=
          Player.resolve_hits collides laser p1 rest
        (p', some o2 :: objs', killedNow ++ kills, sfx ++ sounds)
      else
        let (p', objs', kills, sounds) :=
          Player.resolve_hits collides laser p rest
        (p', some o :: objs', kills, sounds)

/-- Method `Player.resolve_missiles`: same walk as `resolve_hits`, but the explosion
sound plays on every colliding candidate (before the damage), the damage is
3 hp, there is no dedicated hit sound, and the missile is removed from
`missiles_fired` on any hit. -/
def Player.resolve_missiles (collides : Target → Bool) (missile : Nat)
    (p : PlayerState) :
    List (Option Target) →
      PlayerState × List (Option Target) × List Target × List Sfx
  | [] => (p, [], [], [])
  | obj :: rest =>
    match obj with
    | none =>
      let (p', objs', kills, sounds) :=
        Player.resolve_missiles collides missile p rest
      (p', none :: objs', kills, sounds)
    | some o =>
      if collides o then
        let o1 : Target := { o with hp := o.hp - 3 }
        let (o2, killedNow) :=
          if o1.hp ≤ 0 then
            (Target.kill o1, [Target.kill o1])
          else
            (o1, ([] : List Target))
        let p1 := { p with
          missiles_fired := p.missiles_fired.filter (fun m => m.id ≠ missile) }
        let (p', objs', kills, sounds) :=
          Player.resolve_missiles collides missile p1 rest
        (p', some o2 :: objs', killedNow ++ kills, Sfx.explosion :: sounds)
      else
        let (p', objs', kills, sounds) :=
          Player.resolve_missiles collides missile p rest
        (p', some o :: objs', kills, sounds)

/-- Method `Player.start_glow_effect`: absolute re-arm of the glow window from the
current clock (`pygame.time.get_ticks()`, passed as `now`). -/
def Player.start_glow_effect (now : Nat) (p : PlayerState) : PlayerState :=
  { p with glow_effect_end_time := now + p.glow_effect_duration }

/-- The restore loop of `update_idle_animation`: write every cached original
surface back into the idle frame list, in cache (= Python dict insertion)
order. -/
def restoreFrames (frames : List SurfId) (cache : List (Nat × SurfId)) :
    List SurfId :=
  cache.foldl (fun fr e => fr.set e.1 e.2) frames

/-- The glow half of `update_idle_animation` (lines 96-109): while the clock
is before the glow end time, cache the displayed surface for the current
frame index if that index is not cached yet (a pygame surface is always
truthy, so the Python `not ...get(...)` test is exactly key absence), then
blend the displayed surface in place; otherwise restore all cached surfaces
into the frame list and clear the cache.  Finally the animation counter
increments. -/
def Player.glowStep (now : Nat) (s : PlayerState) : PlayerState :=
  let s2 :=
    if now < s.glow_effect_end_time then
      let s1 :=
        if (s.original_images.find? (fun e => e.1 == s.current_frame)).isNone then
          { s with
              original_images :=
                s.original_images ++ [(s.current_frame, s.nextId)]
              heap := s.heap ++ [(s.nextId, heapGet s.heap s.img)]
              nextId := s.nextId + 1 }
        else s
      { s1 with heap := heapSet s1.heap s1.img (fillYellow (heapGet s1.heap s1.img)) }
    else
      { s with
          idle_animation_frames :=
            restoreFrames s.idle_animation_frames s.original_images
          original_images := [] }
  { s2 with animation_counter := s2.animation_counter + 1 }

/-- Method `Player.update_idle_animation`: on every fifth call (counter divisible
by 5) the current frame advances circularly and the displayed image becomes
that frame; then the glow half runs.  `none` models the Python
ZeroDivisionError raised by `% len(frames)` when the frame list is empty. -/
def Player.update_idle_animation (now : Nat) (s : PlayerState) :
    Option PlayerState :=
  if s.animation_counter % 5 = 0 then
    if s.idle_animation_frames.length = 0 then none
    else
      let cf := (s.current_frame + 1) % s.idle_animation_frames.length
      some (Player.glowStep now
        { s with
            current_frame := cf
            img := s.idle_animation_frames.getD cf 0 })
  else
    some (Player.glowStep now s)

/-- Run a sequence of `update_idle_animation` calls at the given clock
values; any crash aborts the run. -/
def Player.runUpdates : List Nat → PlayerState → Option PlayerState
  | [], s => some s
  | t :: ts, s =>
    match Player.update_idle_animation t s with
    | none => none
    | some s' => Player.runUpdates ts s'

/-- One game-loop action on the player, for reasoning about arbitrary
interleavings of the guarded fire methods and the per-frame cooldown
ticks. -/
inductive PlayerOp
  | shootOp
  | cooldownCannonOp
  | fireMissleOp (lock : Option Nat)
  | cooldownMissilesOp

/-- Apply one action (the sound effects are fire-and-forget and dropped). -/
def Player.step (c : Consts) (p : PlayerState) : PlayerOp → PlayerState
  | PlayerOp.shootOp => (Player.shoot c p).1
  | PlayerOp.cooldownCannonOp => Player.cooldown_cannon p
  | PlayerOp.fireMissleOp lock => (Player.fire_missle lock p).1
  | PlayerOp.cooldownMissilesOp => Player.cooldown_missiles p

/-- Apply a sequence of actions. -/
def Player.run (c : Consts) (ops : List PlayerOp) (p : PlayerState) :
    PlayerState :=
  ops.foldl (Player.step c) p

/-- Whether some candidate of the list is non-null and colliding. -/
def anyColliding (collides : Target → Bool) (objs : List (Option Target)) :
    Bool :=
  objs.any (fun obj => (obj.map collides).getD false)

lemma filter_ne_idem (l : List Projectile) (laser : Nat) :
    (l.filter (fun x => x.id ≠ laser)).filter (fun x => x.id ≠ laser) =
      l.filter (fun x => x.id ≠ laser) := by
  induction l with
  | nil => rfl
  | cons a l ih =>
    by_cases h : a.id = laser <;> simp [h, ih]

lemma resolve_hits_eq (collides : Target → Bool) (laser : Nat)
    (p : PlayerState) (objs : List (Option Target)) :
    Player.resolve_hits collides laser p objs =
      ({ p with lasers_fired :=
            if anyColliding collides objs then
              p.lasers_fired.filter (fun l => l.id ≠ laser)
            else p.lasers_fired },
       objs.map (fun obj => obj.map (fun o =>
         if collides o then
           (if o.hp - 1 ≤ 0 then Target.kill { o with hp := o.hp - 1 }
            else { o with hp := o.hp - 1 })
         else o)),
       objs.filterMap (fun obj => obj.bind (fun o =>
         if collides o ∧ o.hp - 1 ≤ 0 then
           some (Target.kill { o with hp := o.hp - 1 })
         else none)),
       objs.foldr (fun obj acc =>
         (match obj with
          | none => []
          | some o =>
            if collides o then
              (if o.hp - 1 ≤ 0 then [Sfx.laserHit, Sfx.explosion]
               else [Sfx.laserHit])
            else []) ++ acc) []) := by
  induction objs generalizing p with
  | nil => rfl
  | cons obj rest ih =>
    cases obj with
    | none => simp [Player.resolve_hits, ih, anyColliding]
    | some o =>
      by_cases hc : collides o
      · by_cases hk : o.hp - 1 ≤ 0
        · have hk1 : o.hp ≤ 1 := by omega
          simp [Player.resolve_hits, ih, anyColliding, hc, hk, hk1,
            filter_ne_idem]
        · have hk1 : ¬ o.hp ≤ 1 := by omega
          simp [Player.resolve_hits, ih, anyColliding, hc, hk, hk1,
            filter_ne_idem]
      · simp [Player.resolve_hits, ih, anyColliding, hc]

lemma filter_ne_idem_missile (l : List MissileRec) (missile : Nat) :
    (l.filter (fun x => x.id ≠ missile)).filter (fun x => x.id ≠ missile) =
      l.filter (fun x => x.id ≠ missile) := by
  induction l with
  | nil => rfl
  | cons a l ih =>
    by_cases h : a.id = missile <;> simp [h, ih]

lemma resolve_missiles_eq (collides : Target → Bool) (missile : Nat)
    (p : PlayerState) (objs : List (Option Target)) :
    Player.resolve_missiles collides missile p objs =
      ({ p with missiles_fired :=
            if anyColliding collides objs then
              p.missiles_fired.filter (fun m => m.id ≠ missile)
            else p.missiles_fired },
       objs.map (fun obj => obj.map (fun o =>
         if collides o then
           (if o.hp - 3 ≤ 0 then Target.kill { o with hp := o.hp - 3 }
            else { o with hp := o.hp - 3 })
         else o)),
       objs.filterMap (fun obj => obj.bind (fun o =>
         if collides o ∧ o.hp - 3 ≤ 0 then
           some (Target.kill { o with hp := o.hp - 3 })
         else none)),
       objs.foldr (fun obj acc =>
         (match obj with
          | none => []
          | some o => if collides o then [Sfx.explosion] else []) ++ acc)
         []) := by
  induction objs generalizing p with
  | nil => rfl
  | cons obj rest ih =>
    cases obj with
    | none => simp [Player.resolve_missiles, ih, anyColliding]
    | some o =>
      by_cases hc : collides o
      · by_cases hk : o.hp - 3 ≤ 0
        · have hk1 : o.hp ≤ 3 := by omega
          simp [Player.resolve_missiles, ih, anyColliding, hc, hk, hk1,
            filter_ne_idem_missile]
        · have hk1 : ¬ o.hp ≤ 3 := by omega
          simp [Player.resolve_missiles, ih, anyColliding, hc, hk, hk1,
            filter_ne_idem_missile]
      · simp [Player.resolve_missiles, ih, anyColliding, hc]

/-- Claim C1: for every laser and candidate list, `resolve_hits` decrements
hp by exactly 1 on every non-null colliding candidate (iteration never stops,
so candidates after the laser removal are still decremented), removes the
laser from `lasers_fired` exactly when at least one candidate collides,
touches no other player field, and returns exactly the colliding candidates
whose hp after the decrement is `≤ 0`, each with its removal hook invoked.
In particular a single colliding target with hp 1 dies and is the sole entry
of the kill list, and one with hp 2 ends at hp 1, is not in the kill list,
and the laser is still removed. -/
theorem resolve_hits_correct :
    (∀ (collides : Target → Bool) (laser : Nat) (p : PlayerState)
        (objs : List (Option Target)),
      Player.resolve_hits collides laser p objs =
        ({ p with lasers_fired :=
              if anyColliding collides objs then
                p.lasers_fired.filter (fun l => l.id ≠ laser)
              else p.lasers_fired },
         objs.map (fun obj => obj.map (fun o =>
           if collides o then
             (if o.hp - 1 ≤ 0 then Target.kill { o with hp := o.hp - 1 }
              else { o with hp := o.hp - 1 })
           else o)),
         objs.filterMap (fun obj => obj.bind (fun o =>
           if collides o ∧ o.hp - 1 ≤ 0 then
             some (Target.kill { o with hp := o.hp - 1 })
           else none)),
         objs.foldr (fun obj acc =>
           (match obj with
            | none => []
            | some o =>
              if collides o then
                (if o.hp - 1 ≤ 0 then [Sfx.laserHit, Sfx.explosion]
                 else [Sfx.laserHit])
              else []) ++ acc) [])) ∧
    (∀ (p : PlayerState) (laser : Nat),
      Player.resolve_hits (fun _ => true) laser p [some ⟨0, 1, false⟩] =
        ({ p with lasers_fired :=
              p.lasers_fired.filter (fun l => l.id ≠ laser) },
         [some ⟨0, 0, true⟩], [⟨0, 0, true⟩],
         [Sfx.laserHit, Sfx.explosion])) ∧
    (∀ (p : PlayerState) (laser : Nat),
      Player.resolve_hits (fun _ => true) laser p [some ⟨0, 2, false⟩] =
        ({ p with lasers_fired :=
              p.lasers_fired.filter (fun l => l.id ≠ laser) },
         [some ⟨0, 1, false⟩], [], [Sfx.laserHit])) := by
  refine ⟨resolve_hits_eq, fun p laser => ?_, fun p laser => ?_⟩
  · rw [resolve_hits_eq]
    simp [anyColliding, Target.kill]
  · rw [resolve_hits_eq]
    simp [anyColliding]

/-- Claim C3: for every missile and candidate list, `resolve_missiles`
decrements hp by exactly 3 on every non-null colliding candidate, plays the
explosion sound exactly once per colliding candidate (not only on kills, and
there is no separate hit sound), removes the missile from `missiles_fired`
exactly when at least one candidate collides, touches no other player field,
and returns exactly the colliding candidates whose hp after the decrement is
`≤ 0`, each with its removal hook invoked.  In particular a single colliding
target with hp 3 ends with hp exactly 0, is killed, and the explosion sound
is played once. -/
theorem resolve_missiles_correct :
    (∀ (collides : Target → Bool) (missile : Nat) (p : PlayerState)
        (objs : List (Option Target)),
      Player.resolve_missiles collides missile p objs =
        ({ p with missiles_fired :=
              if anyColliding collides objs then
                p.missiles_fired.filter (fun m => m.id ≠ missile)
              else p.missiles_fired },
         objs.map (fun obj => obj.map (fun o =>
           if collides o then
             (if o.hp - 3 ≤ 0 then Target.kill { o with hp := o.hp - 3 }
              else { o with hp := o.hp - 3 })
           else o)),
         objs.filterMap (fun obj => obj.bind (fun o =>
           if collides o ∧ o.hp - 3 ≤ 0 then
             some (Target.kill { o with hp := o.hp - 3 })
           else none)),
         objs.foldr (fun obj acc =>
           (match obj with
            | none => []
            | some o => if collides o then [Sfx.explosion] else []) ++ acc)
           [])) ∧
    (∀ (p : PlayerState) (missile : Nat),
      Player.resolve_missiles (fun _ => true) missile p [some ⟨0, 3, false⟩] =
        ({ p with missiles_fired :=
              p.missiles_fired.filter (fun m => m.id ≠ missile) },
         [some ⟨0, 0, true⟩], [⟨0, 0, true⟩], [Sfx.explosion])) := by
  refine ⟨resolve_missiles_eq, fun p missile => ?_⟩
  rw [resolve_missiles_eq]
  simp [anyColliding, Target.kill]

/-- The successful branch of `shoot`, as the claim describes it: one laser
appended at `(x, y - offset)` carrying the player laser damage and the base
laser speed, the fire sound, and the cannon cooldown counter set to 1. -/
def ShootFires (c : Consts) (p : PlayerState) : Prop :=
  Player.shoot c p =
    ({ p with
        lasers_fired := p.lasers_fired ++
          [⟨p.nextId, p.posX, p.posY - p.offsetY, p.laser_dmg,
            c.baseLaserSpeed⟩]
        nextId := p.nextId + 1
        cooldown_counter := 1 },
     [Sfx.laserFire])

/-- Claim C4: `shoot` with a nonzero cannon cooldown counter is a silent
no-op (no laser, no sound, no state change); with counter 0 it appends
exactly one laser at `(x, y - offset)` with the stored laser damage (set to
the base damage by the constructor) and the base laser speed, plays the fire
sound, and sets the counter to 1. -/
theorem shoot_correct :
    (∀ (c : Consts) (p : PlayerState),
        p.cooldown_counter ≠ 0 → Player.shoot c p = (p, [])) ∧
    (∀ (c : Consts) (p : PlayerState),
        p.cooldown_counter = 0 → ShootFires c p) ∧
    (∀ (c : Consts) (posX posY hp speed : Int) (shipImg : SurfId)
        (offsetY : Int) (frames : List SurfId) (heap : List (SurfId × Img))
        (nid : Nat),
        (Player.init c posX posY hp speed shipImg offsetY frames heap
            nid).laser_dmg = c.baseLaserDmg) := by
  refine ⟨fun c p h => ?_, fun c p h => ?_, fun _ _ _ _ _ _ _ _ _ _ => rfl⟩
  · unfold Player.shoot
    rw [if_neg h]
  · unfold ShootFires Player.shoot
    rw [if_pos h]

/-- Witness for C4 at a concrete player (cooling and ready). -/
theorem shoot_correct_witness :
    Player.shoot ⟨7, 2, 3⟩
        { Player.init ⟨7, 2, 3⟩ 0 0 0 0 0 0 [] [] 0 with
            cooldown_counter := 1 } =
      ({ Player.init ⟨7, 2, 3⟩ 0 0 0 0 0 0 [] [] 0 with
          cooldown_counter := 1 }, []) ∧
    ShootFires ⟨7, 2, 3⟩ (Player.init ⟨7, 2, 3⟩ 0 0 0 0 0 0 [] [] 0) :=
  ⟨shoot_correct.1 _ _ (by decide), shoot_correct.2.1 _ _ (by decide)⟩

/-- The successful branch of `fire_missle`, as the claim describes it: one
missile appended with spawn-time damage field 1, the missile count one
lower, the missile cooldown counter set to 1, and the fire sound. -/
def FireMissleFires (lock : Option Nat) (p : PlayerState) : Prop :=
  Player.fire_missle lock p =
    ({ p with
        missiles_fired := p.missiles_fired ++
          [⟨p.nextId, p.posX, p.posY - p.offsetY, 1, p.speed, lock⟩]
        nextId := p.nextId + 1
        missile_count := p.missile_count - 1
        missile_cooldown_counter := 1 },
     [Sfx.missileFire])

lemma run_preserves (P : PlayerState → Prop) (c : Consts)
    (hstep : ∀ p op, P p → P (Player.step c p op)) :
    ∀ (ops : List PlayerOp) (p : PlayerState), P p → P (Player.run c ops p) := by
  intro ops
  induction ops with
  | nil => intro p hp; exact hp
  | cons op ops ih => intro p hp; exact ih _ (hstep p op hp)

lemma step_missile_count_nonneg (c : Consts) (p : PlayerState)
    (op : PlayerOp) (h : 0 ≤ p.missile_count) :
    0 ≤ (Player.step c p op).missile_count := by
  cases op with
  | shootOp =>
    simp only [Player.step, Player.shoot]
    split <;> simpa
  | cooldownCannonOp =>
    simp only [Player.step, Player.cooldown_cannon]
    split
    · simpa
    · split <;> simpa
  | fireMissleOp lock =>
    simp only [Player.step, Player.fire_missle]
    split
    · rename_i hfire
      simp only
      omega
    · simpa
  | cooldownMissilesOp =>
    simp only [Player.step, Player.cooldown_missiles]
    split
    · simpa
    · split <;> simpa

/-- Claim C5: `fire_missle` with an empty stock or a warm launcher is a
silent no-op (in particular the missile count is never decremented below 0
and no missile is added); with stock and a cold launcher it appends exactly
one missile with spawn-time damage field 1, decrements the count, starts the
missile cooldown, and plays the fire sound.  Starting from the constructor
stock of 2, the missile count stays `≥ 0` under every action sequence. -/
theorem fire_missle_correct :
    (∀ (lock : Option Nat) (p : PlayerState),
        p.missile_count = 0 ∨ p.missile_cooldown_counter ≠ 0 →
        Player.fire_missle lock p = (p, [])) ∧
    (∀ (lock : Option Nat) (p : PlayerState),
        0 < p.missile_count → p.missile_cooldown_counter = 0 →
        FireMissleFires lock p) ∧
    (∀ (c : Consts) (posX posY hp speed : Int) (shipImg : SurfId)
        (offsetY : Int) (frames : List SurfId) (heap : List (SurfId × Img))
        (nid : Nat),
        (Player.init c posX posY hp speed shipImg offsetY frames heap
            nid).missile_count = 2) ∧
    (∀ (c : Consts) (posX posY hp speed : Int) (shipImg : SurfId)
        (offsetY : Int) (frames : List SurfId) (heap : List (SurfId × Img))
        (nid : Nat) (ops : List PlayerOp),
        0 ≤ (Player.run c ops (Player.init c posX posY hp speed shipImg
            offsetY frames heap nid)).missile_count) := by
  refine ⟨fun lock p h => ?_, fun lock p h1 h2 => ?_,
    fun _ _ _ _ _ _ _ _ _ _ => rfl, fun c posX posY hp speed si oy fr he ni ops => ?_⟩
  · unfold Player.fire_missle
    rw [if_neg]
    rcases h with h | h <;> simp [h]
  · unfold FireMissleFires Player.fire_missle
    rw [if_pos ⟨h1, h2⟩]
  · exact run_preserves (fun q => 0 ≤ q.missile_count) c
      (step_missile_count_nonneg c) ops _ (by norm_num [Player.init])

/-- Witness for C5 at concrete players (out of stock, warm, and ready). -/
theorem fire_missle_correct_witness :
    Player.fire_missle none
        { Player.init ⟨7, 2, 3⟩ 0 0 0 0 0 0 [] [] 0 with
            missile_count := 0 } =
      ({ Player.init ⟨7, 2, 3⟩ 0 0 0 0 0 0 [] [] 0 with
          missile_count := 0 }, []) ∧
    FireMissleFires none (Player.init ⟨7, 2, 3⟩ 0 0 0 0 0 0 [] [] 0) :=
  ⟨fire_missle_correct.1 _ _ (Or.inl (by decide)),
   fire_missle_correct.2.1 _ _ (by decide) (by decide)⟩

lemma cooldown_cannon_reset (p : PlayerState)
    (h : p.cooldown_threshold ≤ p.cooldown_counter) :
    Player.cooldown_cannon p = { p with cooldown_counter := 0 } := by
  unfold Player.cooldown_cannon
  rw [if_pos h]

lemma cooldown_missiles_reset (p : PlayerState)
    (h : p.missile_cooldown_threshold ≤ p.missile_cooldown_counter) :
    Player.cooldown_missiles p = { p with missile_cooldown_counter := 0 } := by
  unfold Player.cooldown_missiles
  rw [if_pos h]

lemma cooldown_cannon_running (p : PlayerState) (h1 : 0 < p.cooldown_counter)
    (h2 : p.cooldown_counter < p.cooldown_threshold) :
    Player.cooldown_cannon p =
      { p with cooldown_counter := p.cooldown_counter + 1 } := by
  unfold Player.cooldown_cannon
  rw [if_neg (by omega), if_pos h1]

lemma cooldown_missiles_running (p : PlayerState)
    (h1 : 0 < p.missile_cooldown_counter)
    (h2 : p.missile_cooldown_counter < p.missile_cooldown_threshold) :
    Player.cooldown_missiles p =
      { p with missile_cooldown_counter := p.missile_cooldown_counter + 1 } := by
  unfold Player.cooldown_missiles
  rw [if_neg (by omega), if_pos h1]

lemma cannon_tick_iter (k : Nat) :
    ∀ (p : PlayerState), 0 < p.cooldown_counter →
      p.cooldown_counter + (k : Int) ≤ p.cooldown_threshold →
      (Player.cooldown_cannon^[k] p).cooldown_counter =
        p.cooldown_counter + (k : Int) ∧
      (Player.cooldown_cannon^[k] p).cooldown_threshold =
        p.cooldown_threshold := by
  induction k with
  | zero => intro p h1 h2; simp
  | succ k ih =>
    intro p h1 h2
    rw [Function.iterate_succ_apply,
      cooldown_cannon_running p h1 (by push_cast at h2; omega)]
    have hrec := ih { p with cooldown_counter := p.cooldown_counter + 1 }
      (by simp; omega) (by simp; push_cast at h2 ⊢; omega)
    refine ⟨?_, hrec.2⟩
    rw [hrec.1]
    simp
    ring

lemma missile_tick_iter (k : Nat) :
    ∀ (p : PlayerState), 0 < p.missile_cooldown_counter →
      p.missile_cooldown_counter + (k : Int) ≤ p.missile_cooldown_threshold →
      (Player.cooldown_missiles^[k] p).missile_cooldown_counter =
        p.missile_cooldown_counter + (k : Int) ∧
      (Player.cooldown_missiles^[k] p).missile_cooldown_threshold =
        p.missile_cooldown_threshold := by
  induction k with
  | zero => intro p h1 h2; simp
  | succ k ih =>
    intro p h1 h2
    rw [Function.iterate_succ_apply,
      cooldown_missiles_running p h1 (by push_cast at h2; omega)]
    have hrec := ih { p with missile_cooldown_counter :=
        p.missile_cooldown_counter + 1 }
      (by simp; omega) (by simp; push_cast at h2 ⊢; omega)
    refine ⟨?_, hrec.2⟩
    rw [hrec.1]
    simp
    ring

lemma cannon_fire_exact (p : PlayerState) (T : Nat)
    (h1 : p.cooldown_counter = 1) (hT : p.cooldown_threshold = (T : Int))
    (hT1 : 1 ≤ T) :
    (Player.cooldown_cannon^[T] p).cooldown_counter = 0 ∧
    ∀ k, k < T → (Player.cooldown_cannon^[k] p).cooldown_counter ≠ 0 := by
  constructor
  · obtain ⟨T', rfl⟩ : ∃ T', T = T' + 1 := ⟨T - 1, by omega⟩
    rw [Function.iterate_succ_apply']
    have hit := cannon_tick_iter T' p (by omega)
      (by rw [h1, hT]; push_cast; omega)
    have hcond : (Player.cooldown_cannon^[T'] p).cooldown_threshold ≤
        (Player.cooldown_cannon^[T'] p).cooldown_counter := by
      rw [hit.1, hit.2, h1, hT]
      push_cast
      omega
    rw [cooldown_cannon_reset _ hcond]
  · intro k hk
    have hit := cannon_tick_iter k p (by omega)
      (by rw [h1, hT]; omega)
    rw [hit.1, h1]
    omega

lemma missile_fire_exact (p : PlayerState) (T : Nat)
    (h1 : p.missile_cooldown_counter = 1)
    (hT : p.missile_cooldown_threshold = (T : Int)) (hT1 : 1 ≤ T) :
    (Player.cooldown_missiles^[T] p).missile_cooldown_counter = 0 ∧
    ∀ k, k < T →
      (Player.cooldown_missiles^[k] p).missile_cooldown_counter ≠ 0 := by
  constructor
  · obtain ⟨T', rfl⟩ : ∃ T', T = T' + 1 := ⟨T - 1, by omega⟩
    rw [Function.iterate_succ_apply']
    have hit := missile_tick_iter T' p (by omega)
      (by rw [h1, hT]; push_cast; omega)
    have hcond : (Player.cooldown_missiles^[T'] p).missile_cooldown_threshold ≤
        (Player.cooldown_missiles^[T'] p).missile_cooldown_counter := by
      rw [hit.1, hit.2, h1, hT]
      push_cast
      omega
    rw [cooldown_missiles_reset _ hcond]
  · intro k hk
    have hit := missile_tick_iter k p (by omega)
      (by rw [h1, hT]; omega)
    rw [hit.1, h1]
    omega

/-- The combined cooldown-range invariant preserved by every action. -/
def CooldownInv (c : Consts) (q : PlayerState) : Prop :=
  0 ≤ q.cooldown_counter ∧ q.cooldown_counter ≤ q.cooldown_threshold ∧
  q.cooldown_threshold = c.baseCannonCooldown ∧
  0 ≤ q.missile_cooldown_counter ∧
  q.missile_cooldown_counter ≤ q.missile_cooldown_threshold ∧
  q.missile_cooldown_threshold = c.baseCannonCooldown

lemma step_cooldown_inv (c : Consts) (h : 1 ≤ c.baseCannonCooldown)
    (p : PlayerState) (op : PlayerOp) (hp : CooldownInv c p) :
    CooldownInv c (Player.step c p op) := by
  obtain ⟨i1, i2, i3, i4, i5, i6⟩ := hp
  cases op with
  | shootOp =>
    simp only [Player.step, Player.shoot, CooldownInv]
    split <;> (refine ⟨?_, ?_, ?_, ?_, ?_, ?_⟩ <;> simp_all)
  | cooldownCannonOp =>
    simp only [Player.step, Player.cooldown_cannon, CooldownInv]
    split
    · refine ⟨?_, ?_, ?_, ?_, ?_, ?_⟩ <;> simp_all <;> omega
    · split <;> (refine ⟨?_, ?_, ?_, ?_, ?_, ?_⟩ <;> simp_all <;> omega)
  | fireMissleOp lock =>
    simp only [Player.step, Player.fire_missle, CooldownInv]
    split <;> (refine ⟨?_, ?_, ?_, ?_, ?_, ?_⟩ <;> simp_all)
  | cooldownMissilesOp =>
    simp only [Player.step, Player.cooldown_missiles, CooldownInv]
    split
    · refine ⟨?_, ?_, ?_, ?_, ?_, ?_⟩ <;> simp_all <;> omega
    · split <;> (refine ⟨?_, ?_, ?_, ?_, ?_, ?_⟩ <;> simp_all <;> omega)

/-- The cooldown state machine as claim C2 states it: per-tick transitions,
global range invariant over every action interleaving from a fresh player,
return to ready in exactly `threshold` ticks after a fire, and the fire
methods starting their cooldown at 1. -/
def CooldownSpec (c : Consts) : Prop :=
  (∀ p : PlayerState,
    (p.cooldown_threshold ≤ p.cooldown_counter →
      (Player.cooldown_cannon p).cooldown_counter = 0) ∧
    (0 < p.cooldown_counter → p.cooldown_counter < p.cooldown_threshold →
      (Player.cooldown_cannon p).cooldown_counter = p.cooldown_counter + 1) ∧
    (p.cooldown_counter = 0 →
      (Player.cooldown_cannon p).cooldown_counter = 0) ∧
    (p.missile_cooldown_threshold ≤ p.missile_cooldown_counter →
      (Player.cooldown_missiles p).missile_cooldown_counter = 0) ∧
    (0 < p.missile_cooldown_counter →
      p.missile_cooldown_counter < p.missile_cooldown_threshold →
      (Player.cooldown_missiles p).missile_cooldown_counter =
        p.missile_cooldown_counter + 1) ∧
    (p.missile_cooldown_counter = 0 →
      (Player.cooldown_missiles p).missile_cooldown_counter = 0)) ∧
  (∀ (posX posY hp speed : Int) (shipImg : SurfId) (offsetY : Int)
      (frames : List SurfId) (heap : List (SurfId × Img)) (nid : Nat)
      (ops : List PlayerOp),
    0 ≤ (Player.run c ops (Player.init c posX posY hp speed shipImg offsetY
        frames heap nid)).cooldown_counter ∧
    (Player.run c ops (Player.init c posX posY hp speed shipImg offsetY
        frames heap nid)).cooldown_counter ≤ c.baseCannonCooldown ∧
    0 ≤ (Player.run c ops (Player.init c posX posY hp speed shipImg offsetY
        frames heap nid)).missile_cooldown_counter ∧
    (Player.run c ops (Player.init c posX posY hp speed shipImg offsetY
        frames heap nid)).missile_cooldown_counter ≤ c.baseCannonCooldown) ∧
  (∀ (p : PlayerState) (T : Nat), p.cooldown_counter = 1 →
    p.cooldown_threshold = (T : Int) → 1 ≤ T →
    (Player.cooldown_cannon^[T] p).cooldown_counter = 0 ∧
    ∀ k, k < T → (Player.cooldown_cannon^[k] p).cooldown_counter ≠ 0) ∧
  (∀ (p : PlayerState) (T : Nat), p.missile_cooldown_counter = 1 →
    p.missile_cooldown_threshold = (T : Int) → 1 ≤ T →
    (Player.cooldown_missiles^[T] p).missile_cooldown_counter = 0 ∧
    ∀ k, k < T →
      (Player.cooldown_missiles^[k] p).missile_cooldown_counter ≠ 0) ∧
  (∀ p : PlayerState, p.cooldown_counter = 0 →
    ((Player.shoot c p).1).cooldown_counter = 1) ∧
  (∀ (p : PlayerState) (lock : Option Nat), 0 < p.missile_count →
    p.missile_cooldown_counter = 0 →
    ((Player.fire_missle lock p).1).missile_cooldown_counter = 1)

/-- Claim C2: under every interleaving of the fire methods and the cooldown
ticks from a fresh player, both cooldown counters stay in `[0, threshold]`;
a tick at or above the threshold resets to 0, a running tick increments by
1, a tick at 0 stays at 0; and a successful fire (counter set to 1) returns
to 0 after exactly `threshold` ticks, never earlier. -/
theorem cooldown_state_machine (c : Consts)
    (h : 1 ≤ c.baseCannonCooldown) : CooldownSpec c := by
  refine ⟨fun p => ?_, fun posX posY hp speed si oy fr he ni ops => ?_,
    cannon_fire_exact, missile_fire_exact, fun p hp => ?_, fun p lock h1 h2 => ?_⟩
  · refine ⟨fun hge => ?_, fun h0 hlt => ?_, fun h0 => ?_,
      fun hge => ?_, fun h0 hlt => ?_, fun h0 => ?_⟩
    · unfold Player.cooldown_cannon
      rw [if_pos hge]
    · rw [cooldown_cannon_running p h0 hlt]
    · unfold Player.cooldown_cannon
      split
      · rfl
      · rw [if_neg (by omega)]
        exact h0
    · unfold Player.cooldown_missiles
      rw [if_pos hge]
    · rw [cooldown_missiles_running p h0 hlt]
    · unfold Player.cooldown_missiles
      split
      · rfl
      · rw [if_neg (by omega)]
        exact h0
  · have hinv := run_preserves (CooldownInv c) c (step_cooldown_inv c h) ops
      (Player.init c posX posY hp speed si oy fr he ni)
      (by
        unfold CooldownInv Player.init
        refine ⟨?_, ?_, ?_, ?_, ?_, ?_⟩ <;> simp_all <;> omega)
    obtain ⟨i1, i2, i3, i4, i5, i6⟩ := hinv
    exact ⟨i1, i3 ▸ i2, i4, i6 ▸ i5⟩
  · unfold Player.shoot
    rw [if_pos hp]
  · unfold Player.fire_missle
    rw [if_pos ⟨h1, h2⟩]

/-- Witness for C2 at a concrete constant record with threshold 3. -/
theorem cooldown_state_machine_witness :
    1 ≤ (Consts.mk 5 1 3).baseCannonCooldown ∧ CooldownSpec (Consts.mk 5 1 3) :=
  ⟨by norm_num, cooldown_state_machine _ (by norm_num)⟩

/-- Claim C8: `start_glow_effect` sets the end time to the current time plus
the stored duration (200 for a constructed player), regardless of any
previously scheduled end time; two triggers 50 time units apart leave the
end at the second trigger time plus 200, not an additive extension. -/
theorem start_glow_effect_resets :
    (∀ (p : PlayerState) (now : Nat),
      (Player.start_glow_effect now p).glow_effect_end_time =
        now + p.glow_effect_duration) ∧
    (∀ (c : Consts) (posX posY hp speed : Int) (shipImg : SurfId)
        (offsetY : Int) (frames : List SurfId) (heap : List (SurfId × Img))
        (nid : Nat),
      (Player.init c posX posY hp speed shipImg offsetY frames heap
          nid).glow_effect_duration = 200) ∧
    (∀ (c : Consts) (posX posY hp speed : Int) (shipImg : SurfId)
        (offsetY : Int) (frames : List SurfId) (heap : List (SurfId × Img))
        (nid : Nat) (t : Nat),
      (Player.start_glow_effect (t + 50)
          (Player.start_glow_effect t
            (Player.init c posX posY hp speed shipImg offsetY frames heap
              nid))).glow_effect_end_time = (t + 50) + 200) :=
  ⟨fun _ _ => rfl, fun _ _ _ _ _ _ _ _ _ _ => rfl,
   fun _ _ _ _ _ _ _ _ _ _ _ => rfl⟩

lemma restoreFrames_nil (f : List SurfId) : restoreFrames f [] = f := rfl

lemma restoreFrames_length (cache : List (Nat × SurfId)) :
    ∀ f : List SurfId, (restoreFrames f cache).length = f.length := by
  induction cache with
  | nil => intro f; rfl
  | cons e rest ih =>
    intro f
    show (restoreFrames (f.set e.1 e.2) rest).length = f.length
    rw [ih, List.length_set]

lemma glowStep_fields (now : Nat) (s : PlayerState) :
    (Player.glowStep now s).animation_counter = s.animation_counter + 1 ∧
    (Player.glowStep now s).current_frame = s.current_frame ∧
    (Player.glowStep now s).img = s.img ∧
    (Player.glowStep now s).glow_effect_end_time = s.glow_effect_end_time := by
  by_cases hg : now < s.glow_effect_end_time
  · by_cases hc :
      (s.original_images.find? (fun e => e.1 == s.current_frame)).isNone
    · simp [Player.glowStep, hg, hc]
    · simp [Player.glowStep, hg, hc]
  · simp [Player.glowStep, hg]

lemma glowStep_noGlow (now : Nat) (s : PlayerState)
    (h : s.glow_effect_end_time ≤ now) :
    Player.glowStep now s =
      { s with
          idle_animation_frames :=
            restoreFrames s.idle_animation_frames s.original_images
          original_images := []
          animation_counter := s.animation_counter + 1 } := by
  have hg : ¬ now < s.glow_effect_end_time := by omega
  simp [Player.glowStep, hg]

lemma glowStep_glow_cached (now : Nat) (s : PlayerState)
    (h : now < s.glow_effect_end_time)
    (hc : (s.original_images.find? (fun e => e.1 == s.current_frame)).isNone
      = false) :
    Player.glowStep now s =
      { s with
          heap := heapSet s.heap s.img (fillYellow (heapGet s.heap s.img))
          animation_counter := s.animation_counter + 1 } := by
  simp [Player.glowStep, h, hc]

lemma glowStep_glow_uncached (now : Nat) (s : PlayerState)
    (h : now < s.glow_effect_end_time)
    (hc : (s.original_images.find? (fun e => e.1 == s.current_frame)).isNone) :
    Player.glowStep now s =
      { s with
          original_images := s.original_images ++ [(s.current_frame, s.nextId)]
          heap := heapSet (s.heap ++ [(s.nextId, heapGet s.heap s.img)]) s.img
            (fillYellow (heapGet (s.heap ++ [(s.nextId, heapGet s.heap s.img)])
              s.img))
          nextId := s.nextId + 1
          animation_counter := s.animation_counter + 1 } := by
  simp [Player.glowStep, h, hc]

lemma update_adv (t : Nat) (s : PlayerState)
    (h5 : s.animation_counter % 5 = 0)
    (hf : s.idle_animation_frames.length ≠ 0) :
    Player.update_idle_animation t s =
      some (Player.glowStep t
        { s with
            current_frame :=
              (s.current_frame + 1) % s.idle_animation_frames.length
            img := s.idle_animation_frames.getD
              ((s.current_frame + 1) % s.idle_animation_frames.length) 0 }) := by
  unfold Player.update_idle_animation
  rw [if_pos h5, if_neg hf]

lemma update_noAdv (t : Nat) (s : PlayerState)
    (h5 : s.animation_counter % 5 ≠ 0) :
    Player.update_idle_animation t s = some (Player.glowStep t s) := by
  unfold Player.update_idle_animation
  rw [if_neg h5]

lemma update_noGlow_adv (t : Nat) (s : PlayerState)
    (h5 : s.animation_counter % 5 = 0)
    (hf : s.idle_animation_frames.length ≠ 0)
    (ht : s.glow_effect_end_time ≤ t) :
    Player.update_idle_animation t s =
      some
        { s with
            current_frame :=
              (s.current_frame + 1) % s.idle_animation_frames.length
            img := s.idle_animation_frames.getD
              ((s.current_frame + 1) % s.idle_animation_frames.length) 0
            idle_animation_frames :=
              restoreFrames s.idle_animation_frames s.original_images
            original_images := []
            animation_counter := s.animation_counter + 1 } := by
  rw [update_adv t s h5 hf, glowStep_noGlow]
  exact ht

lemma update_noGlow_noAdv (t : Nat) (s : PlayerState)
    (h5 : s.animation_counter % 5 ≠ 0)
    (ht : s.glow_effect_end_time ≤ t) :
    Player.update_idle_animation t s =
      some
        { s with
            idle_animation_frames :=
              restoreFrames s.idle_animation_frames s.original_images
            original_images := []
            animation_counter := s.animation_counter + 1 } := by
  rw [update_noAdv t s h5, glowStep_noGlow t s ht]

lemma update_counter (t : Nat) (s s' : PlayerState)
    (h : Player.update_idle_animation t s = some s') :
    s'.animation_counter = s.animation_counter + 1 := by
  by_cases h5 : s.animation_counter % 5 = 0
  · by_cases hf : s.idle_animation_frames.length = 0
    · rw [Player.update_idle_animation, if_pos h5, if_pos hf] at h
      cases h
    · rw [update_adv t s h5 hf] at h
      cases h
      exact (glowStep_fields t _).1
  · rw [update_noAdv t s h5] at h
    cases h
    exact (glowStep_fields t s).1

lemma runUpdates_cons_some (t : Nat) (ts : List Nat) (s s' : PlayerState)
    (h : Player.update_idle_animation t s = some s') :
    Player.runUpdates (t :: ts) s = Player.runUpdates ts s' := by
  simp [Player.runUpdates, h]

/-- How many of the next `k` calls advance the frame when the animation
counter currently reads `c` (one advance per counter value divisible
by 5). -/
def countAdv : Nat → Nat → Nat
  | _, 0 => 0
  | c, Nat.succ k => (if c % 5 = 0 then 1 else 0) + countAdv (c + 1) k

lemma countAdv_five (c : Nat) : countAdv c 5 = 1 := by
  have h : c % 5 = 0 ∨ c % 5 = 1 ∨ c % 5 = 2 ∨ c % 5 = 3 ∨ c % 5 = 4 := by
    omega
  have e1 : (c + 1) % 5 = (c % 5 + 1) % 5 := by omega
  have e2 : (c + 2) % 5 = (c % 5 + 2) % 5 := by omega
  have e3 : (c + 3) % 5 = (c % 5 + 3) % 5 := by omega
  have e4 : (c + 4) % 5 = (c % 5 + 4) % 5 := by omega
  rcases h with hr | hr | hr | hr | hr <;>
    simp [countAdv, e1, e2, e3, e4, hr]

lemma runUpdates_noGlow_char (ts : List Nat) :
    ∀ s : PlayerState, s.idle_animation_frames.length ≠ 0 →
      (∀ t ∈ ts, s.glow_effect_end_time ≤ t) →
      ∃ s', Player.runUpdates ts s = some s' ∧
        s'.animation_counter = s.animation_counter + ts.length ∧
        s'.idle_animation_frames.length = s.idle_animation_frames.length ∧
        s'.glow_effect_end_time = s.glow_effect_end_time ∧
        s'.current_frame =
          (if countAdv s.animation_counter ts.length = 0 then s.current_frame
           else (s.current_frame + countAdv s.animation_counter ts.length) %
             s.idle_animation_frames.length) := by
  induction ts with
  | nil =>
    intro s hf ht
    exact ⟨s, rfl, by simp, rfl, rfl, by simp [countAdv]⟩
  | cons t ts ih =>
    intro s hf ht
    have hXlen : (restoreFrames s.idle_animation_frames
        s.original_images).length = s.idle_animation_frames.length :=
      restoreFrames_length _ _
    by_cases h5 : s.animation_counter % 5 = 0
    · have e := update_noGlow_adv t s h5 hf (ht t (by simp))
      obtain ⟨s', hrun, hcnt, hlen, hglow, hcf⟩ :=
        ih { s with
              current_frame :=
                (s.current_frame + 1) % s.idle_animation_frames.length
              img := s.idle_animation_frames.getD
                ((s.current_frame + 1) % s.idle_animation_frames.length) 0
              idle_animation_frames :=
                restoreFrames s.idle_animation_frames s.original_images
              original_images := []
              animation_counter := s.animation_counter + 1 }
          (by simpa [hXlen] using hf)
          (fun u hu => ht u (by simp [hu]))
      have hcount : countAdv s.animation_counter (t :: ts).length =
          1 + countAdv (s.animation_counter + 1) ts.length := by
        show countAdv s.animation_counter (Nat.succ ts.length) = _
        simp [countAdv, h5]
      refine ⟨s', (runUpdates_cons_some t ts s _ e).trans hrun, ?_, ?_, ?_, ?_⟩
      · rw [hcnt]
        show s.animation_counter + 1 + ts.length =
          s.animation_counter + (ts.length + 1)
        omega
      · rw [hlen]
        exact hXlen
      · exact hglow
      · rw [hcf, hcount]
        show (if countAdv (s.animation_counter + 1) ts.length = 0 then
                (s.current_frame + 1) % s.idle_animation_frames.length
              else ((s.current_frame + 1) % s.idle_animation_frames.length +
                  countAdv (s.animation_counter + 1) ts.length) %
                (restoreFrames s.idle_animation_frames
                  s.original_images).length) =
            if 1 + countAdv (s.animation_counter + 1) ts.length = 0 then
              s.current_frame
            else (s.current_frame +
                (1 + countAdv (s.animation_counter + 1) ts.length)) %
              s.idle_animation_frames.length
        rw [hXlen]
        rcases Nat.eq_zero_or_pos
          (countAdv (s.animation_counter + 1) ts.length) with hm | hm
        · rw [hm]
          simp
        · rw [if_neg (by omega), if_neg (by omega), Nat.mod_add_mod]
          congr 1
          omega
    · have e := update_noGlow_noAdv t s h5 (ht t (by simp))
      obtain ⟨s', hrun, hcnt, hlen, hglow, hcf⟩ :=
        ih { s with
              idle_animation_frames :=
                restoreFrames s.idle_animation_frames s.original_images
              original_images := []
              animation_counter := s.animation_counter + 1 }
          (by simpa [hXlen] using hf)
          (fun u hu => ht u (by simp [hu]))
      have hcount : countAdv s.animation_counter (t :: ts).length =
          countAdv (s.animation_counter + 1) ts.length := by
        show countAdv s.animation_counter (Nat.succ ts.length) = _
        simp [countAdv, h5]
      refine ⟨s', (runUpdates_cons_some t ts s _ e).trans hrun, ?_, ?_, ?_, ?_⟩
      · rw [hcnt]
        show s.animation_counter + 1 + ts.length =
          s.animation_counter + (ts.length + 1)
        omega
      · rw [hlen]
        exact hXlen
      · exact hglow
      · rw [hcf, hcount]
        show (if countAdv (s.animation_counter + 1) ts.length = 0 then
                s.current_frame
              else (s.current_frame +
                  countAdv (s.animation_counter + 1) ts.length) %
                (restoreFrames s.idle_animation_frames
                  s.original_images).length) = _
        rw [hXlen]

/-- Claim C6: with a non-empty frame list and no active glow, any 5
consecutive `update_idle_animation` calls advance `current_frame` by exactly
1 modulo the frame count; per call, the animation counter increments by
exactly 1 unconditionally, the frame advances exactly on the calls where the
counter is divisible by 5, and such a call also points the displayed image
at the new frame. -/
theorem idle_animation_correct :
    (∀ (s : PlayerState) (t1 t2 t3 t4 t5 : Nat),
        s.idle_animation_frames.length ≠ 0 →
        s.glow_effect_end_time ≤ t1 → s.glow_effect_end_time ≤ t2 →
        s.glow_effect_end_time ≤ t3 → s.glow_effect_end_time ≤ t4 →
        s.glow_effect_end_time ≤ t5 →
        ∃ s', Player.runUpdates [t1, t2, t3, t4, t5] s = some s' ∧
          s'.animation_counter = s.animation_counter + 5 ∧
          s'.current_frame =
            (s.current_frame + 1) % s.idle_animation_frames.length) ∧
    (∀ (t : Nat) (s s' : PlayerState),
        Player.update_idle_animation t s = some s' →
        s'.animation_counter = s.animation_counter + 1) ∧
    (∀ (t : Nat) (s s' : PlayerState),
        Player.update_idle_animation t s = some s' →
        s.animation_counter % 5 = 0 →
        s'.current_frame =
          (s.current_frame + 1) % s.idle_animation_frames.length ∧
        s'.img = s.idle_animation_frames.getD
          ((s.current_frame + 1) % s.idle_animation_frames.length) 0) ∧
    (∀ (t : Nat) (s s' : PlayerState),
        Player.update_idle_animation t s = some s' →
        s.animation_counter % 5 ≠ 0 → s'.current_frame = s.current_frame) := by
  refine ⟨fun s t1 t2 t3 t4 t5 hf h1 h2 h3 h4 h5 => ?_, update_counter,
    fun t s s' h h5 => ?_, fun t s s' h h5 => ?_⟩
  · obtain ⟨s', hrun, hcnt, _, _, hcf⟩ :=
      runUpdates_noGlow_char [t1, t2, t3, t4, t5] s hf
        (by intro u hu; simp at hu; rcases hu with rfl | rfl | rfl | rfl | rfl
            <;> assumption)
    refine ⟨s', hrun, hcnt, ?_⟩
    rw [hcf]
    show (if countAdv s.animation_counter 5 = 0 then s.current_frame
          else (s.current_frame + countAdv s.animation_counter 5) %
            s.idle_animation_frames.length) = _
    rw [countAdv_five]
    simp
  · by_cases hf : s.idle_animation_frames.length = 0
    · rw [Player.update_idle_animation, if_pos h5, if_pos hf] at h
      cases h
    · rw [update_adv t s h5 hf] at h
      cases h
      exact ⟨(glowStep_fields t _).2.1, (glowStep_fields t _).2.2.1⟩
  · rw [update_noAdv t s h5] at h
    cases h
    exact (glowStep_fields t s).2.1

/-- A concrete constructed player with a two-frame idle animation, used by
witnesses. -/
def samplePlayer : PlayerState :=
  Player.init ⟨7, 2, 3⟩ 0 0 50 4 10 6 [0, 1] [(0, ⟨0, 0⟩), (1, ⟨1, 0⟩)] 2

/-- Witness for C6: five calls on a freshly built two-frame player. -/
theorem idle_animation_correct_witness :
    samplePlayer.idle_animation_frames.length ≠ 0 ∧
    ∃ s', Player.runUpdates [0, 1, 2, 3, 4] samplePlayer = some s' ∧
      s'.animation_counter = samplePlayer.animation_counter + 5 ∧
      s'.current_frame = (samplePlayer.current_frame + 1) %
        samplePlayer.idle_animation_frames.length :=
  ⟨by decide, idle_animation_correct.1 samplePlayer 0 1 2 3 4 (by decide)
    (by decide) (by decide) (by decide) (by decide) (by decide)⟩

lemma runUpdates_zero_glow (ts : List Nat) :
    ∀ s : PlayerState, s.glow_effect_end_time = 0 → s.original_images = [] →
      ∀ s'', Player.runUpdates ts s = some s'' →
        s''.glow_effect_end_time = 0 ∧ s''.original_images = [] ∧
        s''.idle_animation_frames = s.idle_animation_frames ∧
        s''.animation_counter = s.animation_counter + ts.length := by
  induction ts with
  | nil =>
    intro s h0 hc s'' h
    cases h
    exact ⟨h0, hc, rfl, by simp⟩
  | cons t ts ih =>
    intro s h0 hc s'' h
    by_cases h5 : s.animation_counter % 5 = 0
    · by_cases hf : s.idle_animation_frames.length = 0
      · have e : Player.update_idle_animation t s = none := by
          rw [Player.update_idle_animation, if_pos h5, if_pos hf]
        simp [Player.runUpdates, e] at h
      · have e := update_noGlow_adv t s h5 hf (by omega)
        rw [hc, restoreFrames_nil] at e
        rw [runUpdates_cons_some t ts s _ e] at h
        obtain ⟨g0, gc, gfr, gcnt⟩ :=
          ih { s with
                current_frame :=
                  (s.current_frame + 1) % s.idle_animation_frames.length
                img := s.idle_animation_frames.getD
                  ((s.current_frame + 1) % s.idle_animation_frames.length) 0
                original_images := []
                animation_counter := s.animation_counter + 1 } h0 rfl s'' h
        refine ⟨g0, gc, gfr, ?_⟩
        rw [gcnt]
        show s.animation_counter + 1 + ts.length =
          s.animation_counter + (ts.length + 1)
        omega
    · have e := update_noGlow_noAdv t s h5 (by omega)
      rw [hc, restoreFrames_nil] at e
      rw [runUpdates_cons_some t ts s _ e] at h
      obtain ⟨g0, gc, gfr, gcnt⟩ :=
        ih { s with
              original_images := []
              animation_counter := s.animation_counter + 1 } h0 rfl s'' h
      refine ⟨g0, gc, gfr, ?_⟩
      rw [gcnt]
      show s.animation_counter + 1 + ts.length =
        s.animation_counter + (ts.length + 1)
      omega

/-- Claim C10: on a freshly constructed player (counter 0, frame 0) the very
first `update_idle_animation` call already advances to frame `1 mod n` and
displays it, because `0 mod 5 = 0`; more generally, after any `k` calls from
construction the next call advances exactly when `k mod 5 = 0`, so the
advances fall on calls 1, 6, 11, and so on. -/
theorem first_update_advances :
    (∀ (c : Consts) (posX posY hp speed : Int) (shipImg : SurfId)
        (offsetY : Int) (frames : List SurfId) (heap : List (SurfId × Img))
        (nid : Nat) (t : Nat), frames.length ≠ 0 →
      ∃ s1, Player.update_idle_animation t
          (Player.init c posX posY hp speed shipImg offsetY frames heap nid) =
          some s1 ∧
        s1.current_frame = 1 % frames.length ∧
        s1.img = frames.getD (1 % frames.length) 0 ∧
        s1.animation_counter = 1) ∧
    (∀ (c : Consts) (posX posY hp speed : Int) (shipImg : SurfId)
        (offsetY : Int) (frames : List SurfId) (heap : List (SurfId × Img))
        (nid : Nat) (times : List Nat) (t : Nat) (s'' : PlayerState),
        frames.length ≠ 0 →
        Player.runUpdates times
          (Player.init c posX posY hp speed shipImg offsetY frames heap nid) =
          some s'' →
        (times.length % 5 = 0 →
          ∃ s3, Player.update_idle_animation t s'' = some s3 ∧
            s3.current_frame = (s''.current_frame + 1) % frames.length) ∧
        (times.length % 5 ≠ 0 →
          ∃ s3, Player.update_idle_animation t s'' = some s3 ∧
            s3.current_frame = s''.current_frame)) := by
  constructor
  · intro c posX posY hp speed shipImg offsetY frames heap nid t hf
    exact ⟨_, update_noGlow_adv t _ rfl hf (Nat.zero_le t), rfl, rfl, rfl⟩
  · intro c posX posY hp speed shipImg offsetY frames heap nid times t s'' hf
      hrunEq
    obtain ⟨g0, gc, gfr, gcnt⟩ :=
      runUpdates_zero_glow times _ rfl rfl s'' hrunEq
    constructor
    · intro hmod
      have h5 : s''.animation_counter % 5 = 0 := by
        rw [gcnt]
        show (0 + times.length) % 5 = 0
        omega
      have hf'' : s''.idle_animation_frames.length ≠ 0 := by
        rw [gfr]
        exact hf
      refine ⟨_, update_noGlow_adv t s'' h5 hf''
        (by rw [g0]; exact Nat.zero_le t), ?_⟩
      show (s''.current_frame + 1) % s''.idle_animation_frames.length = _
      rw [gfr]
      rfl
    · intro hmod
      have h5 : s''.animation_counter % 5 ≠ 0 := by
        rw [gcnt]
        show ¬ (0 + times.length) % 5 = 0
        omega
      exact ⟨_, update_noGlow_noAdv t s'' h5
        (by rw [g0]; exact Nat.zero_le t), rfl⟩

/-- Witness for C10: the first call on the concrete two-frame player. -/
theorem first_update_advances_witness :
    ([0, 1] : List SurfId).length ≠ 0 ∧
    ∃ s1, Player.update_idle_animation 3
        (Player.init ⟨7, 2, 3⟩ 0 0 50 4 10 6 [0, 1]
          [(0, ⟨0, 0⟩), (1, ⟨1, 0⟩)] 2) = some s1 ∧
      s1.current_frame = 1 % ([0, 1] : List SurfId).length ∧
      s1.img = ([0, 1] : List SurfId).getD
        (1 % ([0, 1] : List SurfId).length) 0 ∧
      s1.animation_counter = 1 :=
  ⟨by decide, first_update_advances.1 ⟨7, 2, 3⟩ 0 0 50 4 10 6 [0, 1]
    [(0, ⟨0, 0⟩), (1, ⟨1, 0⟩)] 2 3 (by decide)⟩

/-- A concrete constructed player with two idle frames (surfaces 10 and 11,
base pictures 0 and 1, no blend applied), used for glow scenarios. -/
def cexPlayer : PlayerState :=
  Player.init ⟨7, 2, 3⟩ 0 0 50 4 12 6 [10, 11]
    [(10, ⟨0, 0⟩), (11, ⟨1, 0⟩), (12, ⟨2, 0⟩)] 13

/-- Glow re-trigger scenario: trigger at time 0, one animation call while
glowing, one call after expiry (restores), re-trigger at 201 before the next
frame advance, one call while glowing again, one call after the second
expiry (restores again). -/
def glowRetriggerTrace : Option PlayerState :=
  (Player.update_idle_animation 0 (Player.start_glow_effect 0 cexPlayer)).bind
    (fun r1 => (Player.update_idle_animation 201 r1).bind
      (fun r2 => (Player.update_idle_animation 202
          (Player.start_glow_effect 201 r2)).bind
        (fun r3 => Player.update_idle_animation 402 r3)))

/-- Single glow window scenario: trigger at time 0, two animation calls
while glowing, one call after expiry. -/
def glowSingleTrace : Option PlayerState :=
  (Player.update_idle_animation 0 (Player.start_glow_effect 0 cexPlayer)).bind
    (fun r1 => (Player.update_idle_animation 1 r1).bind
      (fun r2 => Player.update_idle_animation 201 r2))

/-- Counterexample to claim C7: after a glow window expires and is restored,
re-triggering the glow before the next frame advance makes the code cache
the still-displayed, already-blended old surface as the "original" (the
restore replaced the frame list entry but `self.img` still aliases the
blended surface).  After the second expiry the cache is empty and no glow is
active, yet frame 1 carries one blend (`⟨1, 1⟩`) instead of its pre-glow
original (`⟨1, 0⟩`), so the frame images do not equal their pre-glow
originals whenever no glow effect is active. -/
theorem glow_restore_counterexample :
    glowRetriggerTrace.map (fun s4 => s4.original_images) = some [] ∧
    glowRetriggerTrace.map (fun s4 => s4.glow_effect_end_time) = some 401 ∧
    glowRetriggerTrace.map (fun s4 =>
      heapGet s4.heap (s4.idle_animation_frames.getD 1 0)) =
      some ⟨1, 1⟩ ∧
    heapGet cexPlayer.heap (cexPlayer.idle_animation_frames.getD 1 0) =
      ⟨1, 0⟩ := by
  exact ⟨rfl, rfl, rfl, rfl⟩

lemma heapSet_cons (a : SurfId × Img) (l : List (SurfId × Img))
    (i : SurfId) (v : Img) :
    heapSet (a :: l) i v = (if a.1 == i then (i, v) else a) :: heapSet l i v :=
  rfl

lemma heapGet_cons (a : SurfId × Img) (l : List (SurfId × Img)) (i : SurfId) :
    heapGet (a :: l) i = if a.1 == i then a.2 else heapGet l i := by
  by_cases hai : (a.1 == i) = true
  · simp [heapGet, List.find?_cons, hai]
  · have haf : (a.1 == i) = false := by simpa using hai
    simp [heapGet, List.find?_cons, haf]

lemma heapGet_heapSet_append (h : List (SurfId × Img)) (nid imgid : SurfId)
    (v w : Img) (hfresh : h.find? (fun e => e.1 == nid) = none)
    (hne : imgid ≠ nid) :
    heapGet (heapSet (h ++ [(nid, v)]) imgid w) nid = v := by
  induction h with
  | nil =>
    show heapGet (heapSet [(nid, v)] imgid w) nid = v
    rw [heapSet_cons, if_neg (by simpa [beq_iff_eq] using Ne.symm hne),
      heapGet_cons, if_pos (by simp)]
  | cons a h ih =>
    by_cases ha : (a.1 == nid) = true
    · simp [List.find?_cons, ha] at hfresh
    · have haf : (a.1 == nid) = false := by simpa using ha
      simp only [List.find?_cons, haf] at hfresh
      rw [List.cons_append, heapSet_cons, heapGet_cons]
      have hcond : ((if a.1 == imgid then (imgid, w) else a).1 == nid)
          = false := by
        by_cases hai : (a.1 == imgid) = true
        · rw [if_pos hai]
          simpa [beq_iff_eq] using hne
        · rw [if_neg hai]
          simpa using ha
      rw [hcond]
      simp only [Bool.false_eq_true, if_false]
      exact ih hfresh

lemma glowStep_glow_cache (t : Nat) (x : PlayerState)
    (hg : t < x.glow_effect_end_time) :
    ((x.original_images.find? (fun e => e.1 == x.current_frame)).isSome →
      (Player.glowStep t x).original_images = x.original_images) ∧
    ((x.original_images.find? (fun e => e.1 == x.current_frame)).isNone →
      (Player.glowStep t x).original_images =
        x.original_images ++ [(x.current_frame, x.nextId)] ∧
      (x.heap.find? (fun e => e.1 == x.nextId) = none → x.img ≠ x.nextId →
        heapGet (Player.glowStep t x).heap x.nextId = heapGet x.heap x.img)) ∧
    (Player.glowStep t x).idle_animation_frames = x.idle_animation_frames := by
  by_cases hc : (x.original_images.find?
      (fun e => e.1 == x.current_frame)).isNone
  · rw [glowStep_glow_uncached t x hg hc]
    refine ⟨fun hpre => ?_, fun _ => ⟨rfl, fun hfresh hne => ?_⟩, rfl⟩
    · rw [Option.isNone_iff_eq_none] at hc
      rw [hc] at hpre
      simp at hpre
    · exact heapGet_heapSet_append x.heap x.nextId x.img _ _ hfresh hne
  · have hc2 : (x.original_images.find?
        (fun e => e.1 == x.current_frame)).isNone = false := by
      simpa using hc
    rw [glowStep_glow_cached t x hg hc2]
    refine ⟨fun _ => rfl, fun hpre => ?_, rfl⟩
    rw [hpre] at hc2
    cases hc2

/-- Claim C7, amended.  While the glow is active, a call never re-caches a
frame index that is already cached, and an uncached index is cached exactly
once as a fresh copy of the currently displayed surface as it is before this
call applies the blend; the frame list itself is untouched while glowing.
On any call with the glow expired, every cached surface is written back into
the frame list and the cache is cleared, so the cache is empty after every
no-glow call.  The restored surfaces equal the pre-glow originals for a glow
window entered with an un-blended displayed image (concrete single-window
scenario below); they do not in general (see the re-trigger
counterexample). -/
theorem glow_cache_behavior :
    (∀ (t : Nat) (s s' : PlayerState),
        Player.update_idle_animation t s = some s' →
        t < s.glow_effect_end_time →
        ((s.original_images.find?
            (fun e => e.1 == s'.current_frame)).isSome →
          s'.original_images = s.original_images) ∧
        ((s.original_images.find?
            (fun e => e.1 == s'.current_frame)).isNone →
          s'.original_images =
            s.original_images ++ [(s'.current_frame, s.nextId)] ∧
          (s.heap.find? (fun e => e.1 == s.nextId) = none → s'.img ≠ s.nextId →
            heapGet s'.heap s.nextId = heapGet s.heap s'.img)) ∧
        s'.idle_animation_frames = s.idle_animation_frames) ∧
    (∀ (t : Nat) (s s' : PlayerState),
        Player.update_idle_animation t s = some s' →
        s.glow_effect_end_time ≤ t →
        s'.original_images = [] ∧
        s'.idle_animation_frames =
          restoreFrames s.idle_animation_frames s.original_images) ∧
    (glowSingleTrace.map (fun s3 => s3.original_images) = some [] ∧
     glowSingleTrace.map (fun s3 =>
       (heapGet s3.heap (s3.idle_animation_frames.getD 0 0),
        heapGet s3.heap (s3.idle_animation_frames.getD 1 0))) =
       some (⟨0, 0⟩, ⟨1, 0⟩) ∧
     heapGet cexPlayer.heap (cexPlayer.idle_animation_frames.getD 0 0) =
       ⟨0, 0⟩ ∧
     heapGet cexPlayer.heap (cexPlayer.idle_animation_frames.getD 1 0) =
       ⟨1, 0⟩) := by
  refine ⟨fun t s s' h hg => ?_, fun t s s' h hg => ?_, rfl, rfl, rfl, rfl⟩
  · by_cases h5 : s.animation_counter % 5 = 0
    · by_cases hf : s.idle_animation_frames.length = 0
      · rw [Player.update_idle_animation, if_pos h5, if_pos hf] at h
        cases h
      · rw [update_adv t s h5 hf] at h
        cases h
        rw [(glowStep_fields t _).2.1, (glowStep_fields t _).2.2.1]
        exact glowStep_glow_cache t _ (by exact hg)
    · rw [update_noAdv t s h5] at h
      cases h
      rw [(glowStep_fields t s).2.1, (glowStep_fields t s).2.2.1]
      exact glowStep_glow_cache t s hg
  · by_cases h5 : s.animation_counter % 5 = 0
    · by_cases hf : s.idle_animation_frames.length = 0
      · rw [Player.update_idle_animation, if_pos h5, if_pos hf] at h
        cases h
      · rw [update_noGlow_adv t s h5 hf hg] at h
        cases h
        exact ⟨rfl, rfl⟩
    · rw [update_noGlow_noAdv t s h5 hg] at h
      cases h
      exact ⟨rfl, rfl⟩

/-- The state produced by one expired-glow call on the concrete player. -/
def glowWitnessState : PlayerState :=
  (Player.update_idle_animation 500 cexPlayer).getD cexPlayer

/-- Witness for the amended C7 at a concrete expired-glow call. -/
theorem glow_cache_behavior_witness :
    Player.update_idle_animation 500 cexPlayer = some glowWitnessState ∧
    cexPlayer.glow_effect_end_time ≤ 500 ∧
    glowWitnessState.original_images = [] ∧
    glowWitnessState.idle_animation_frames =
      restoreFrames cexPlayer.idle_animation_frames
        cexPlayer.original_images :=
  ⟨rfl, by decide,
   (glow_cache_behavior.2.1 500 cexPlayer glowWitnessState rfl (by decide)).1,
   (glow_cache_behavior.2.1 500 cexPlayer glowWitnessState rfl (by decide)).2⟩

/-- Counterexample to claim C9: constructing a player with an empty
idle-frame list does not fail fast — the constructor performs only field
assignments and yields a fully usable object (its hp is readable below) —
and the crash surfaces only later, on the first `update_idle_animation`
call, whose `% len(...)` raises (modelled by `none`). -/
theorem empty_frames_construction_counterexample :
    (Player.init ⟨7, 2, 3⟩ 0 0 50 4 10 6 [] [] 0).idle_animation_frames =
      [] ∧
    (Player.init ⟨7, 2, 3⟩ 0 0 50 4 10 6 [] [] 0).hp = 50 ∧
    (Player.init ⟨7, 2, 3⟩ 0 0 50 4 10 6 [] [] 0).missile_count = 2 ∧
    Player.update_idle_animation 0
      (Player.init ⟨7, 2, 3⟩ 0 0 50 4 10 6 [] [] 0) = none := by
  exact ⟨rfl, rfl, rfl, rfl⟩

/-- Claim C9, amended: the constructor performs no validation, so a player
with an empty idle-animation frame sequence is constructed successfully
(every field is assigned as usual); the failure is deferred to the first
`update_idle_animation` call, which always fails on the modulus over the
zero frame count. -/
theorem empty_frames_defers_crash :
    ∀ (c : Consts) (posX posY hp speed : Int) (shipImg : SurfId)
      (offsetY : Int) (heap : List (SurfId × Img)) (nid : Nat),
      (Player.init c posX posY hp speed shipImg offsetY [] heap
          nid).idle_animation_frames = [] ∧
      (Player.init c posX posY hp speed shipImg offsetY [] heap
          nid).hp = hp ∧
      (Player.init c posX posY hp speed shipImg offsetY [] heap
          nid).animation_counter = 0 ∧
      ∀ now : Nat, Player.update_idle_animation now
        (Player.init c posX posY hp speed shipImg offsetY [] heap nid) =
        none := by
  intro c posX posY hp speed shipImg offsetY heap nid
  exact ⟨rfl, rfl, rfl, fun now => rfl⟩

end PyFighter
